import Mathlib

/-!
Shallow embedding of the Pending Changes Reviewer snapshot engine
(class `SnapshotManager` of `snapshotManager.ts`).

File identities are the `fsPath` strings the source uses as map keys.
JavaScript `Map` objects become association lists with first-match lookup.
The host environment (open documents, the on-disk contents, and the failure
modes of the read and write primitives) is an explicit `Env` record:
`readErr` lists paths where reading from disk raises a non-ENOENT error,
`writeErr` lists paths where a disk write or a workspace edit fails.
JavaScript `Set.has` over a list of lines coincides with list membership,
and `string.split(newline)` keeps the trailing empty piece, which
`splitCharList` reproduces.
-/

/-- First-match lookup in an association list, the `Map.get` of the source. -/
def mGet {α : Type} : List (String × α) → String → Option α
  | [], _ => none
  | (k, v) :: rest, key => if k = key then some v else mGet rest key

/-- Insert-or-replace, the `Map.set` of the source. -/
def mSet {α : Type} : List (String × α) → String → α → List (String × α)
  | [], key, v => [(key, v)]
  | (k, w) :: rest, key, v =>
    if k = key then (key, v) :: rest else (k, w) :: mSet rest key v

/-- Remove every entry of a key, the `Map.delete` of the source. -/
def mDel {α : Type} : List (String × α) → String → List (String × α)
  | [], _ => []
  | (k, v) :: rest, key =>
    if k = key then mDel rest key else (k, v) :: mDel rest key

/-- One tracked baseline (interface `FileSnapshot` of the source); the file
identity is the key under which the record is stored, so the `uri` field
becomes that key. -/
structure FileSnapshot where
  originalContent : String
  snapshotTime : Nat
  relativePath : String
  isNewFile : Bool
deriving Repr, DecidableEq

/-- The change kinds of interface `FileChange`. -/
inductive ChangeType where
  | modified
  | created
  | deleted
deriving Repr, DecidableEq

/-- One derived change entry (interface `FileChange` of the source). -/
structure FileChange where
  key : String
  relativePath : String
  originalContent : String
  currentContent : String
  snapshotTime : Nat
  changeType : ChangeType
  additions : Nat
  deletions : Nat
deriving Repr, DecidableEq

/-- The host environment consumed by the engine: open editor documents, the
disk, the paths whose reads raise non-ENOENT errors, the paths whose writes
fail, and the workspace-relative display-path function. -/
structure Env where
  docs : List (String × String)
  disk : List (String × String)
  readErr : List String
  writeErr : List String
  rel : String → String

/-- The mutable state of class `SnapshotManager`: the active-baseline map,
the deleted-record map, and a counter of `_onSnapshotsChanged.fire()` calls. -/
structure SnapshotManager where
  snapshots : List (String × FileSnapshot)
  deletedFiles : List (String × FileSnapshot)
  events : Nat
deriving Repr, DecidableEq

/-- `this._onSnapshotsChanged.fire()`. -/
def fire (s : SnapshotManager) : SnapshotManager :=
  { s with events := s.events + 1 }

/-- Result of `readFileContent`: content, `null` for ENOENT, or a thrown
error. -/
inductive ReadResult where
  | ok (content : String)
  | notFound
  | ioError
deriving Repr, DecidableEq

/-- `readFileContent`: prefer the open document text; otherwise read from
disk, where ENOENT becomes `notFound` and other errors are thrown. -/
def readFileContent (env : Env) (key : String) : ReadResult :=
  match mGet env.docs key with
  | some text => .ok text
  | none =>
    if key ∈ env.readErr then .ioError
    else
      match mGet env.disk key with
      | some content => .ok content
      | none => .notFound

/-- JavaScript `split` on the newline character, over the character list:
keeps empty pieces, so a trailing newline yields a trailing empty string. -/
def splitCharList : List Char → List String
  | [] => [""]
  | c :: rest =>
    let r := splitCharList rest
    if c = '\n' then "" :: r
    else
      match r with
      | [] => [String.mk [c]]
      | h :: t => String.mk (c :: h.data) :: t

/-- `content.split(newline)` of the source. -/
def jsSplitLines (s : String) : List String :=
  splitCharList s.data

/-- `snapshot.originalContent.split(newline).length`, the deletion count the
source assigns to a deleted entry. -/
def lineCount (s : String) : Nat :=
  (jsSplitLines s).length

/-- `countChanges` of the source: additions are the occurrences of current
lines whose text the original line set lacks (`Set.has` over the line list
is list `contains`), deletions symmetrically; returned as
(additions, deletions). -/
def countChanges (original current : String) : Nat × Nat :=
  (((jsSplitLines current).filter (fun l => !((jsSplitLines original).contains l))).length,
   ((jsSplitLines original).filter (fun l => !((jsSplitLines current).contains l))).length)

/-- Reference line-diff counter written from the words of the spec: build the
set of distinct lines of each side; a current line absent from the set of
distinct original lines counts one addition per occurrence, symmetrically for
deletions. -/
def countChangesSpec (original current : String) : Nat × Nat :=
  let originalSet := (jsSplitLines original).dedup
  let currentSet := (jsSplitLines current).dedup
  (((jsSplitLines current).filter (fun l => decide (l ∉ originalSet))).length,
   ((jsSplitLines original).filter (fun l => decide (l ∉ currentSet))).length)

/-- `snapshotFile`: read first (a thrown read error is caught, a `null` read
returns), then skip when a baseline already exists, else record a baseline
with the read content and fire. -/
def snapshotFile (env : Env) (now : Nat) (s : SnapshotManager) (key : String) :
    SnapshotManager :=
  match readFileContent env key with
  | .ioError => s
  | .notFound => s
  | .ok content =>
    if (mGet s.snapshots key).isSome then s
    else
      let snap : FileSnapshot :=
        { originalContent := content, snapshotTime := now,
          relativePath := env.rel key, isNewFile := false }
      fire { s with snapshots := mSet s.snapshots key snap }

/-- `autoSnapshotBeforeChange`: skip when a baseline exists, else read and
record as in `snapshotFile`. -/
def autoSnapshotBeforeChange (env : Env) (now : Nat) (s : SnapshotManager)
    (key : String) : SnapshotManager :=
  if (mGet s.snapshots key).isSome then s
  else
    match readFileContent env key with
    | .ioError => s
    | .notFound => s
    | .ok content =>
      let snap : FileSnapshot :=
        { originalContent := content, snapshotTime := now,
          relativePath := env.rel key, isNewFile := false }
      fire { s with snapshots := mSet s.snapshots key snap }

/-- `trackNewFile`: skip when a baseline exists, else record an empty
original with `isNewFile := true` and fire. -/
def trackNewFile (env : Env) (now : Nat) (s : SnapshotManager) (key : String) :
    SnapshotManager :=
  if (mGet s.snapshots key).isSome then s
  else
    let snap : FileSnapshot :=
      { originalContent := "", snapshotTime := now,
        relativePath := env.rel key, isNewFile := true }
    fire { s with snapshots := mSet s.snapshots key snap }

/-- `trackDeletedFile`: the deleted record keeps the active baseline original
when one exists, else the fallback argument, else the empty string; the
active baseline is removed and the change event fires. -/
def trackDeletedFile (env : Env) (now : Nat) (s : SnapshotManager) (key : String)
    (lastKnownContent : Option String) : SnapshotManager :=
  let content :=
    match mGet s.snapshots key with
    | some snap => snap.originalContent
    | none => lastKnownContent.getD ""
  let rec0 : FileSnapshot :=
    { originalContent := content, snapshotTime := now,
      relativePath := env.rel key, isNewFile := false }
  fire { s with
    deletedFiles := mSet s.deletedFiles key rec0,
    snapshots := mDel s.snapshots key }

/-- `removeSnapshot`: drop the key from both maps and fire. -/
def removeSnapshot (s : SnapshotManager) (key : String) : SnapshotManager :=
  fire { s with snapshots := mDel s.snapshots key,
                deletedFiles := mDel s.deletedFiles key }

/-- `clearAllSnapshots`. -/
def clearAllSnapshots (s : SnapshotManager) : SnapshotManager :=
  fire { s with snapshots := [], deletedFiles := [] }

/-- `acceptFile` delegates to `removeSnapshot`. -/
def acceptFile (s : SnapshotManager) (key : String) : SnapshotManager :=
  removeSnapshot s key

/-- `acceptAndUpdateBaseline`; the second component is the content the
cache-update callback is invoked with (`none` when it is not invoked). -/
def acceptAndUpdateBaseline (env : Env) (s : SnapshotManager) (key : String) :
    SnapshotManager × Option String :=
  if (mGet s.deletedFiles key).isSome then
    (fire { s with deletedFiles := mDel s.deletedFiles key }, none)
  else
    match mGet s.snapshots key with
    | none => (s, none)
    | some _ =>
      match readFileContent env key with
      | .ioError => (s, none)
      | .notFound => (fire { s with snapshots := mDel s.snapshots key }, none)
      | .ok content =>
        (fire { s with snapshots := mDel s.snapshots key }, some content)

/-- Whether `openTextDocument` can open the file: it is an open document, or
it is on disk and reading it raises no error. -/
def canOpen (env : Env) (key : String) : Bool :=
  (mGet env.docs key).isSome ||
    (!(env.readErr.contains key) && (mGet env.disk key).isSome)

/-- `revertFile`: restore a deleted record by writing its original to disk;
delete a new file from disk ignoring unlink errors; otherwise replace the
full document content with the baseline original and save, failing with the
maps untouched when the edit cannot be committed. Returns
(flag, state, environment). -/
def revertFile (env : Env) (s : SnapshotManager) (key : String) :
    Bool × SnapshotManager × Env :=
  match mGet s.deletedFiles key with
  | some dsnap =>
    if key ∈ env.writeErr then (false, s, env)
    else
      (true, fire { s with deletedFiles := mDel s.deletedFiles key },
       { env with disk := mSet env.disk key dsnap.originalContent })
  | none =>
    match mGet s.snapshots key with
    | none => (false, s, env)
    | some snap =>
      if snap.isNewFile then
        (true, removeSnapshot s key,
         { env with disk := if key ∈ env.writeErr then env.disk
                            else mDel env.disk key })
      else
        if canOpen env key ∧ key ∉ env.writeErr then
          (true, removeSnapshot s key,
           { env with docs := mSet env.docs key snap.originalContent,
                      disk := mSet env.disk key snap.originalContent })
        else (false, s, env)

/-- The deleted change entry the source pushes, both for a vanished baseline
and for a deleted record: additions 0, deletions the original line count. -/
def deletedEntry (key : String) (snap : FileSnapshot) : FileChange :=
  { key := key, relativePath := snap.relativePath,
    originalContent := snap.originalContent, currentContent := "",
    snapshotTime := snap.snapshotTime, changeType := .deleted,
    additions := 0, deletions := lineCount snap.originalContent }

/-- The body of the snapshot loop of `getChangedFiles`: a thrown read error
is caught and yields nothing; a vanished non-new file yields a deleted entry;
a new file yields a created entry; differing content yields a modified entry;
equal content yields nothing. -/
def changeOfSnapshot (env : Env) (key : String) (snap : FileSnapshot) :
    Option FileChange :=
  match readFileContent env key with
  | .ioError => none
  | .notFound =>
    if snap.isNewFile then none
    else some (deletedEntry key snap)
  | .ok currentContent =>
    if snap.isNewFile then
      some { key := key, relativePath := snap.relativePath,
             originalContent := "", currentContent := currentContent,
             snapshotTime := snap.snapshotTime, changeType := .created,
             additions := (countChanges "" currentContent).1,
             deletions := (countChanges "" currentContent).2 }
    else if currentContent ≠ snap.originalContent then
      some { key := key, relativePath := snap.relativePath,
             originalContent := snap.originalContent,
             currentContent := currentContent,
             snapshotTime := snap.snapshotTime, changeType := .modified,
             additions := (countChanges snap.originalContent currentContent).1,
             deletions := (countChanges snap.originalContent currentContent).2 }
    else none

/-- `getChangedFiles`: the snapshot loop followed by one deleted entry per
deleted record. -/
def getChangedFiles (env : Env) (s : SnapshotManager) : List FileChange :=
  s.snapshots.filterMap (fun p => changeOfSnapshot env p.1 p.2) ++
    s.deletedFiles.map (fun p => deletedEntry p.1 p.2)

/-- The Baseline Store operations of the spec, each naming its source
method. -/
inductive Op where
  | capture (key : String)
  | autoCapture (key : String)
  | captureNew (key : String)
  | captureDeletion (key : String) (fallback : Option String)
  | accept (key : String)
  | revert (key : String)
  | removeBaseline (key : String)
  | clearAll

/-- One Baseline Store operation applied to the state, threading the
environment (only `revert` mutates it). -/
def applyOp (env : Env) (now : Nat) (o : Op) (s : SnapshotManager) :
    SnapshotManager × Env :=
  match o with
  | .capture key => (snapshotFile env now s key, env)
  | .autoCapture key => (autoSnapshotBeforeChange env now s key, env)
  | .captureNew key => (trackNewFile env now s key, env)
  | .captureDeletion key fb => (trackDeletedFile env now s key fb, env)
  | .accept key => ((acceptAndUpdateBaseline env s key).1, env)
  | .revert key => ((revertFile env s key).2.1, (revertFile env s key).2.2)
  | .removeBaseline key => (removeSnapshot s key, env)
  | .clearAll => (clearAllSnapshots s, env)

/-- A sequence of Baseline Store operations. -/
def applyOps (ops : List Op) (p : SnapshotManager × Env) :
    SnapshotManager × Env :=
  match ops with
  | [] => p
  | o :: rest => applyOps rest (applyOp p.2 0 o p.1)

/-- The exclusivity invariant of the spec: a file identity is present in at
most one of the active-baseline map and the deleted-record map. -/
def exclusiveInvariant (s : SnapshotManager) : Prop :=
  ∀ key, mGet s.snapshots key = none ∨ mGet s.deletedFiles key = none

/-- Side condition under which one operation preserves exclusivity: a
baseline capture must not target an identity holding a deleted record. -/
def opSafe (s : SnapshotManager) : Op → Prop
  | .capture key => mGet s.deletedFiles key = none
  | .autoCapture key => mGet s.deletedFiles key = none
  | .captureNew key => mGet s.deletedFiles key = none
  | _ => True

/-- The manager as constructed: both maps empty, no event fired yet. -/
def emptyManager : SnapshotManager :=
  { snapshots := [], deletedFiles := [], events := 0 }

/-- A minimal host environment for concrete runs. -/
def env0 : Env :=
  { docs := [], disk := [], readErr := [], writeErr := [], rel := id }

/-- A baseline captured for file `F` with original content `"x\n"`. -/
def snapA : FileSnapshot :=
  { originalContent := "x\n", snapshotTime := 0, relativePath := "F",
    isNewFile := false }

/-- A manager tracking one active baseline for `F`. -/
def mgr1 : SnapshotManager :=
  { snapshots := [("F", snapA)], deletedFiles := [], events := 1 }

/-- An environment where `F` is open with edited content `"y\n"`. -/
def env1 : Env :=
  { docs := [("F", "y\n")], disk := [("F", "y\n")], readErr := [],
    writeErr := [], rel := id }

/-- An environment where writing `F` fails. -/
def envW : Env :=
  { docs := [("F", "y\n")], disk := [], readErr := [], writeErr := ["F"],
    rel := id }

/-- A baseline tracking newly created file `N`. -/
def snapN : FileSnapshot :=
  { originalContent := "", snapshotTime := 0, relativePath := "N",
    isNewFile := true }

/-- A manager tracking only the new file `N`. -/
def mgrN : SnapshotManager :=
  { snapshots := [("N", snapN)], deletedFiles := [], events := 1 }

/-- An environment where `N` is open with content `"hello\n"`. -/
def envN : Env :=
  { docs := [("N", "hello\n")], disk := [], readErr := [], writeErr := [],
    rel := id }

theorem mGet_mSet {α : Type} (m : List (String × α)) (key qkey : String) (v : α) :
    mGet (mSet m key v) qkey = if key = qkey then some v else mGet m qkey := by
  induction m with
  | nil => simp [mSet, mGet]
  | cons p rest ih =>
    obtain ⟨pk, pv⟩ := p
    by_cases h : pk = key
    · subst h
      by_cases hq : pk = qkey <;> simp [mSet, mGet, hq]
    · by_cases hq : pk = qkey
      · have hkq : ¬key = qkey := fun e => h (hq.trans e.symm)
        have hqk : ¬qkey = key := fun e => hkq e.symm
        simp [mSet, mGet, h, hq, hkq, hqk]
      · simp [mSet, mGet, h, hq, ih]

theorem mGet_mDel {α : Type} (m : List (String × α)) (key qkey : String) :
    mGet (mDel m key) qkey = if key = qkey then none else mGet m qkey := by
  induction m with
  | nil => simp [mDel, mGet]
  | cons p rest ih =>
    obtain ⟨pk, pv⟩ := p
    by_cases h : pk = key
    · subst h
      by_cases hq : pk = qkey
      · subst hq
        simp [mDel, mGet, ih]
      · simp [mDel, mGet, hq, ih]
    · by_cases hq : pk = qkey
      · have hkq : ¬key = qkey := fun e => h (hq.trans e.symm)
        have hqk : ¬qkey = key := fun e => hkq e.symm
        simp [mDel, mGet, h, hq, hkq, hqk]
      · simp [mDel, mGet, h, hq, ih]

theorem mem_of_mGet_eq_some {α : Type} {m : List (String × α)} {key : String}
    {v : α} (h : mGet m key = some v) : (key, v) ∈ m := by
  induction m with
  | nil => simp [mGet] at h
  | cons p rest ih =>
    obtain ⟨pk, pv⟩ := p
    by_cases hk : pk = key
    · subst hk
      simp [mGet] at h
      subst h
      exact List.mem_cons_self _ _
    · simp [mGet, hk] at h
      exact List.mem_cons_of_mem _ (ih h)

theorem not_mem_of_mGet_eq_none {α : Type} {m : List (String × α)} {key : String}
    (h : mGet m key = none) (v : α) : (key, v) ∉ m := by
  induction m with
  | nil => simp
  | cons p rest ih =>
    obtain ⟨pk, pv⟩ := p
    by_cases hk : pk = key
    · subst hk
      simp [mGet] at h
    · simp [mGet, hk] at h
      intro hmem
      rcases List.mem_cons.mp hmem with he | ht
      · exact hk (congrArg Prod.fst he).symm
      · exact ih h ht

theorem mGet_eq_some_of_mem_nodup {α : Type} {m : List (String × α)} {key : String}
    {v : α} (hnd : (m.map Prod.fst).Nodup) (hm : (key, v) ∈ m) :
    mGet m key = some v := by
  induction m with
  | nil => simp at hm
  | cons p rest ih =>
    obtain ⟨pk, pv⟩ := p
    rcases List.mem_cons.mp hm with he | ht
    · obtain ⟨h1, h2⟩ := Prod.mk.injEq .. ▸ he.symm
      simp [mGet, h1.symm, h2.symm]
    · have hk : pk ≠ key := by
        intro he
        subst he
        exact (List.nodup_cons.mp hnd).1 (List.mem_map.mpr ⟨(pk, v), ht, rfl⟩)
      simp [mGet, hk]
      exact ih (List.nodup_cons.mp hnd).2 ht

theorem fst_ne_of_mem_mDel {α : Type} {m : List (String × α)} {key : String}
    {p : String × α} (h : p ∈ mDel m key) : p.1 ≠ key := by
  induction m with
  | nil => simp [mDel] at h
  | cons q rest ih =>
    obtain ⟨qk, qv⟩ := q
    by_cases hk : qk = key
    · subst hk
      simp [mDel] at h
      exact ih h
    · simp [mDel, hk] at h
      rcases h with he | ht
      · subst he
        simpa using hk
      · exact ih ht

theorem changeOfSnapshot_key {env : Env} {key : String} {snap : FileSnapshot}
    {e : FileChange} (h : changeOfSnapshot env key snap = some e) : e.key = key := by
  unfold changeOfSnapshot at h
  cases hr : readFileContent env key with
  | ioError =>
    rw [hr] at h
    exact absurd h (by simp)
  | notFound =>
    rw [hr] at h
    by_cases hn : snap.isNewFile
    · simp [hn] at h
    · simp [hn] at h
      rw [← h, deletedEntry]
  | ok content =>
    rw [hr] at h
    by_cases hn : snap.isNewFile
    · simp [hn] at h
      rw [← h]
    · by_cases hc : content = snap.originalContent
      · simp [hn, hc] at h
      · simp [hn, hc] at h
        rw [← h]

theorem changeOfSnapshot_newFile_created {env : Env} {key : String}
    {snap : FileSnapshot} {e : FileChange} (hn : snap.isNewFile = true)
    (h : changeOfSnapshot env key snap = some e) : e.changeType = .created := by
  unfold changeOfSnapshot at h
  cases hr : readFileContent env key with
  | ioError =>
    rw [hr] at h
    exact absurd h (by simp)
  | notFound =>
    rw [hr] at h
    simp [hn] at h
  | ok content =>
    rw [hr] at h
    simp [hn] at h
    rw [← h]

theorem changeOfSnapshot_deleted_counts {env : Env} {key : String}
    {snap : FileSnapshot} {e : FileChange}
    (h : changeOfSnapshot env key snap = some e)
    (hdel : e.changeType = .deleted) :
    e.additions = 0 ∧ e.deletions = lineCount e.originalContent := by
  unfold changeOfSnapshot at h
  cases hr : readFileContent env key with
  | ioError =>
    rw [hr] at h
    exact absurd h (by simp)
  | notFound =>
    rw [hr] at h
    by_cases hn : snap.isNewFile
    · simp [hn] at h
    · simp [hn] at h
      rw [← h]
      exact ⟨rfl, rfl⟩
  | ok content =>
    rw [hr] at h
    by_cases hn : snap.isNewFile
    · simp [hn] at h
      rw [← h] at hdel
      exact absurd hdel (by simp)
    · by_cases hc : content = snap.originalContent
      · simp [hn, hc] at h
      · simp [hn, hc] at h
        rw [← h] at hdel
        exact absurd hdel (by simp)

/-- Claim C4: first-capture-wins idempotence — a second `snapshotFile`,
`autoSnapshotBeforeChange` or `trackNewFile` on an identity that already has
an active baseline is a no-op, whatever the current content is, so the first
captured content remains the baseline. -/
theorem capture_first_wins (env : Env) (now : Nat) (s : SnapshotManager)
    (key : String) (h : (mGet s.snapshots key).isSome = true) :
    snapshotFile env now s key = s ∧ autoSnapshotBeforeChange env now s key = s ∧
      trackNewFile env now s key = s := by
  refine ⟨?_, ?_, ?_⟩
  · unfold snapshotFile
    cases readFileContent env key <;> simp [h]
  · unfold autoSnapshotBeforeChange
    simp [h]
  · unfold trackNewFile
    simp [h]

/-- Witness for C4 at the concrete manager `mgr1`, which already tracks `F`
with original `"x\n"` while the live content is `"y\n"`. -/
theorem capture_first_wins_witness :
    snapshotFile env1 0 mgr1 "F" = mgr1 ∧
      autoSnapshotBeforeChange env1 0 mgr1 "F" = mgr1 ∧
      trackNewFile env1 0 mgr1 "F" = mgr1 :=
  capture_first_wins env1 0 mgr1 "F" (by decide)

/-- Claim C9: `countChanges` is antisymmetric — swapping the two arguments swaps
the addition and deletion counts. -/
theorem countChanges_antisymm :
    ∀ a b : String, (countChanges a b).1 = (countChanges b a).2 ∧
      (countChanges a b).2 = (countChanges b a).1 :=
  fun _ _ => ⟨rfl, rfl⟩

/-- Claim C6: the line-diff counter of the source equals the set-membership
reference definition written from the spec, and on original `"a\nb\n"`
versus current `"a\nc\n"` it returns one addition and one deletion. -/
theorem countChanges_matches_spec :
    (∀ a b : String, countChanges a b = countChangesSpec a b) ∧
      countChanges "a\nb\n" "a\nc\n" = (1, 1) := by
  constructor
  · intro a b
    have hfilter : ∀ xs ys : List String,
        ys.filter (fun l => !(xs.contains l)) =
          ys.filter (fun l => decide (l ∉ xs.dedup)) := by
      intro xs ys
      apply List.filter_congr
      intro l _
      simp [List.mem_dedup]
    unfold countChanges countChangesSpec
    rw [hfilter (jsSplitLines a) (jsSplitLines b),
        hfilter (jsSplitLines b) (jsSplitLines a)]
  · decide

/-- Claim C7: when the underlying write cannot be committed, `revertFile` on a
deleted record or on a non-new active baseline returns false and leaves the
maps and the environment untouched (the thrown error is caught inside). -/
theorem revert_io_failure_leaves_state (env : Env) (s : SnapshotManager)
    (key : String) (hw : key ∈ env.writeErr)
    (hcase : (mGet s.deletedFiles key).isSome = true ∨
      (mGet s.snapshots key).map FileSnapshot.isNewFile = some false) :
    revertFile env s key = (false, s, env) := by
  rcases hcase with h1 | h2
  · obtain ⟨dsnap, hd⟩ := Option.isSome_iff_exists.mp h1
    unfold revertFile
    simp [hd, hw]
  · obtain ⟨snap, hs, hfalse⟩ :
        ∃ snap, mGet s.snapshots key = some snap ∧ snap.isNewFile = false := by
      cases hsv : mGet s.snapshots key with
      | none =>
        rw [hsv] at h2
        cases h2
      | some snap =>
        rw [hsv] at h2
        refine ⟨snap, rfl, ?_⟩
        simpa using h2
    unfold revertFile
    cases hd : mGet s.deletedFiles key with
    | some dsnap => simp [hw]
    | none => simp [hs, hfalse, hw]

/-- Witness for C7: reverting `F` in `mgr1` under an environment whose write
to `F` fails returns false with the state and environment unchanged. -/
theorem revert_io_failure_leaves_state_witness :
    revertFile envW mgr1 "F" = (false, mgr1, envW) :=
  revert_io_failure_leaves_state envW mgr1 "F" (by decide) (Or.inr (by decide))

/-- Claim C10: accepting an identity whose active baseline points at a file that no
longer exists still removes the baseline and fires the change notification,
while the cache-update callback is not invoked. -/
theorem accept_missing_file_drops_baseline (env : Env) (s : SnapshotManager)
    (key : String) (hs : (mGet s.snapshots key).isSome = true)
    (hd : mGet s.deletedFiles key = none)
    (hr : readFileContent env key = ReadResult.notFound) :
    acceptAndUpdateBaseline env s key =
      ({ s with snapshots := mDel s.snapshots key, events := s.events + 1 },
        none) ∧
      mGet (acceptAndUpdateBaseline env s key).1.snapshots key = none := by
  have hmain : acceptAndUpdateBaseline env s key =
      ({ s with snapshots := mDel s.snapshots key, events := s.events + 1 },
        none) := by
    unfold acceptAndUpdateBaseline
    rw [hd]
    cases hsv : mGet s.snapshots key with
    | none =>
      rw [hsv] at hs
      simp at hs
    | some snap => simp [hr, fire]
  refine ⟨hmain, ?_⟩
  rw [hmain]
  simp [mGet_mDel]

/-- Witness for C10: accepting `F` in `mgr1` under the empty environment,
where reading `F` reports ENOENT. -/
theorem accept_missing_file_drops_baseline_witness :
    acceptAndUpdateBaseline env0 mgr1 "F" =
      ({ mgr1 with snapshots := mDel mgr1.snapshots "F", events := mgr1.events + 1 },
        none) ∧
      mGet (acceptAndUpdateBaseline env0 mgr1 "F").1.snapshots "F" = none :=
  accept_missing_file_drops_baseline env0 mgr1 "F" (by decide) (by decide)
    (by decide)

/-- Claim C3: `trackDeletedFile` on an identity holding an active baseline stores
that baseline's original content in the deleted record whatever fallback
argument is supplied, and a subsequent successful `revertFile` writes exactly
that content back to disk. -/
theorem deletion_preserves_baseline_original (env : Env) (now : Nat)
    (s : SnapshotManager) (key : String) (fb : Option String)
    (snap : FileSnapshot) (hs : mGet s.snapshots key = some snap)
    (hw : key ∉ env.writeErr) :
    ((mGet (trackDeletedFile env now s key fb).deletedFiles key).map
        FileSnapshot.originalContent = some snap.originalContent) ∧
      (revertFile env (trackDeletedFile env now s key fb) key).1 = true ∧
      mGet (revertFile env (trackDeletedFile env now s key fb) key).2.2.disk
        key = some snap.originalContent := by
  have hrec : mGet (trackDeletedFile env now s key fb).deletedFiles key =
      some { originalContent := snap.originalContent, snapshotTime := now,
             relativePath := env.rel key, isNewFile := false } := by
    unfold trackDeletedFile
    simp [hs, fire, mGet_mSet]
  refine ⟨by rw [hrec]; rfl, ?_, ?_⟩
  · unfold revertFile
    simp [hrec, hw]
  · unfold revertFile
    simp [hrec, hw, mGet_mSet]

/-- Witness for C3 at `mgr1`, deleting `F` with fallback content `"zzz"`:
the record keeps `"x\n"` and revert writes `"x\n"` to disk. -/
theorem deletion_preserves_baseline_original_witness :
    ((mGet (trackDeletedFile env0 0 mgr1 "F" (some "zzz")).deletedFiles
        "F").map FileSnapshot.originalContent = some snapA.originalContent) ∧
      (revertFile env0 (trackDeletedFile env0 0 mgr1 "F" (some "zzz")) "F").1 =
        true ∧
      mGet (revertFile env0 (trackDeletedFile env0 0 mgr1 "F" (some "zzz"))
        "F").2.2.disk "F" = some snapA.originalContent :=
  deletion_preserves_baseline_original env0 0 mgr1 "F" (some "zzz") snapA
    (by decide) (by decide)

/-- Claim C8: every deleted change entry of `getChangedFiles` carries zero
additions and a deletion count equal to the split-line count of the entry's
original content, and every deleted record yields such an entry
unconditionally. -/
theorem deleted_entries_count_original_lines (env : Env) (s : SnapshotManager) :
    (∀ e ∈ getChangedFiles env s, e.changeType = ChangeType.deleted →
      e.additions = 0 ∧ e.deletions = lineCount e.originalContent) ∧
      (∀ key d, mGet s.deletedFiles key = some d →
        ∃ e ∈ getChangedFiles env s,
          e.key = key ∧ e.changeType = ChangeType.deleted) := by
  constructor
  · intro e he hdel
    unfold getChangedFiles at he
    rcases List.mem_append.mp he with hl | hr
    · obtain ⟨p, hp, hsome⟩ := List.mem_filterMap.mp hl
      exact changeOfSnapshot_deleted_counts hsome hdel
    · obtain ⟨p, hp, hsome⟩ := List.mem_map.mp hr
      rw [← hsome, deletedEntry]
      exact ⟨rfl, rfl⟩
  · intro key d hd
    refine ⟨deletedEntry key d, ?_, rfl, rfl⟩
    unfold getChangedFiles
    exact List.mem_append.mpr (Or.inr (List.mem_map.mpr
      ⟨(key, d), mem_of_mGet_eq_some hd, rfl⟩))

theorem canOpen_of_read_ok {env : Env} {key : String} {c : String}
    (hr : readFileContent env key = ReadResult.ok c) : canOpen env key = true := by
  unfold readFileContent at hr
  unfold canOpen
  cases hdoc : mGet env.docs key with
  | some t => simp [hdoc]
  | none =>
    rw [hdoc] at hr
    by_cases hre : key ∈ env.readErr
    · simp [hre] at hr
    · simp only [if_neg hre] at hr
      cases hdisk : mGet env.disk key with
      | none =>
        rw [hdisk] at hr
        cases hr
      | some d =>
        have hcontains : env.readErr.contains key = false := by
          simpa using hre
        simp [hdoc, hdisk, hcontains, hre]

/-- Claim C2: a tracked baseline with `isNewFile = true` whose current content is
readable yields a created entry in `getChangedFiles`, and every entry listed
for that identity is of kind created, never modified, whatever the current
content is. -/
theorem newfile_always_listed_created (env : Env) (s : SnapshotManager)
    (key : String) (snap : FileSnapshot) (c : String)
    (hnd : (s.snapshots.map Prod.fst).Nodup)
    (hs : mGet s.snapshots key = some snap)
    (hnew : snap.isNewFile = true)
    (hd : mGet s.deletedFiles key = none)
    (hr : readFileContent env key = ReadResult.ok c) :
    (∃ e ∈ getChangedFiles env s,
      e.key = key ∧ e.changeType = ChangeType.created) ∧
      (∀ e ∈ getChangedFiles env s, e.key = key →
        e.changeType = ChangeType.created) := by
  constructor
  · have hsome : ∃ e, changeOfSnapshot env key snap = some e := by
      unfold changeOfSnapshot
      rw [hr]
      simp [hnew]
    obtain ⟨e, he⟩ := hsome
    refine ⟨e, ?_, changeOfSnapshot_key he,
      changeOfSnapshot_newFile_created hnew he⟩
    unfold getChangedFiles
    exact List.mem_append.mpr (Or.inl (List.mem_filterMap.mpr
      ⟨(key, snap), mem_of_mGet_eq_some hs, he⟩))
  · intro e he hkey
    unfold getChangedFiles at he
    rcases List.mem_append.mp he with hl | hrr
    · obtain ⟨p, hp, hsome⟩ := List.mem_filterMap.mp hl
      have hk : e.key = p.1 := changeOfSnapshot_key hsome
      have hp1 : p.1 = key := by rw [← hk, hkey]
      have hget : mGet s.snapshots key = some p.2 := by
        apply mGet_eq_some_of_mem_nodup hnd
        rw [← hp1]
        exact hp
      have hsnap : p.2 = snap := Option.some.inj (hget.symm.trans hs)
      exact changeOfSnapshot_newFile_created
        (by rw [hsnap]; exact hnew) hsome
    · obtain ⟨p, hp, hsome⟩ := List.mem_map.mp hrr
      have hk : e.key = p.1 := by
        rw [← hsome]
        rfl
      have hp1 : p.1 = key := by rw [← hk, hkey]
      exfalso
      apply not_mem_of_mGet_eq_none hd p.2
      rw [← hp1]
      exact hp

/-- Witness for C2 at `mgrN`, whose tracked new file `N` currently holds
`"hello\n"`. -/
theorem newfile_always_listed_created_witness :
    (∃ e ∈ getChangedFiles envN mgrN,
      e.key = "N" ∧ e.changeType = ChangeType.created) ∧
      (∀ e ∈ getChangedFiles envN mgrN, e.key = "N" →
        e.changeType = ChangeType.created) :=
  newfile_always_listed_created envN mgrN "N" snapN "hello\n" (by decide)
    (by decide) (by decide) (by decide) (by decide)

/-- Claim C5: successfully reverting a tracked non-new baseline whose current
content differs from the original makes the file content byte-for-byte equal
to the original, and afterwards `getChangedFiles` lists no entry for that
identity. -/
theorem revert_modified_round_trip (env : Env) (s : SnapshotManager)
    (key : String) (snap : FileSnapshot) (c : String)
    (hs : mGet s.snapshots key = some snap)
    (hnew : snap.isNewFile = false)
    (hd : mGet s.deletedFiles key = none)
    (hr : readFileContent env key = ReadResult.ok c)
    (_hdiff : c ≠ snap.originalContent)
    (hw : key ∉ env.writeErr) :
    (revertFile env s key).1 = true ∧
      readFileContent (revertFile env s key).2.2 key =
        ReadResult.ok snap.originalContent ∧
      ∀ e ∈ getChangedFiles (revertFile env s key).2.2
          (revertFile env s key).2.1, e.key ≠ key := by
  have hco : canOpen env key = true := canOpen_of_read_ok hr
  have hrev : revertFile env s key =
      (true, removeSnapshot s key,
       { env with docs := mSet env.docs key snap.originalContent,
                  disk := mSet env.disk key snap.originalContent }) := by
    unfold revertFile
    simp [hd, hs, hnew, hco, hw]
  rw [hrev]
  refine ⟨rfl, ?_, ?_⟩
  · unfold readFileContent
    simp [mGet_mSet]
  · intro e he
    unfold getChangedFiles at he
    rcases List.mem_append.mp he with hl | hrr
    · obtain ⟨p, hp, hsome⟩ := List.mem_filterMap.mp hl
      have hk : e.key = p.1 := changeOfSnapshot_key hsome
      rw [hk]
      have hp2 : p ∈ mDel s.snapshots key := by
        simpa [removeSnapshot, fire] using hp
      exact fst_ne_of_mem_mDel hp2
    · obtain ⟨p, hp, hsome⟩ := List.mem_map.mp hrr
      have hk : e.key = p.1 := by
        rw [← hsome]
        rfl
      rw [hk]
      have hp2 : p ∈ mDel s.deletedFiles key := by
        simpa [removeSnapshot, fire] using hp
      exact fst_ne_of_mem_mDel hp2

/-- Witness for C5 at `mgr1` and `env1`: `F` was captured with `"x\n"`, now
reads `"y\n"`, and the revert succeeds. -/
theorem revert_modified_round_trip_witness :
    (revertFile env1 mgr1 "F").1 = true ∧
      readFileContent (revertFile env1 mgr1 "F").2.2 "F" =
        ReadResult.ok snapA.originalContent ∧
      ∀ e ∈ getChangedFiles (revertFile env1 mgr1 "F").2.2
          (revertFile env1 mgr1 "F").2.1, e.key ≠ "F" :=
  revert_modified_round_trip env1 mgr1 "F" snapA "y\n" (by decide) (by decide)
    (by decide) (by decide) (by decide) (by decide)

theorem exclusive_after_capture (s : SnapshotManager) (key : String)
    (snap : FileSnapshot) (hinv : exclusiveInvariant s)
    (hsafe : mGet s.deletedFiles key = none) :
    exclusiveInvariant (fire { s with snapshots := mSet s.snapshots key snap }) := by
  intro k
  by_cases hk : key = k
  · subst hk
    right
    exact hsafe
  · rcases hinv k with h | h
    · left
      simp [fire, mGet_mSet, hk, h]
    · right
      exact h

theorem exclusive_after_remove (s : SnapshotManager) (key : String)
    (hinv : exclusiveInvariant s) :
    exclusiveInvariant (removeSnapshot s key) := by
  intro k
  rcases hinv k with h | h
  · left
    simp [removeSnapshot, fire, mGet_mDel, h]
  · right
    simp [removeSnapshot, fire, mGet_mDel, h]

theorem exclusive_after_drop_deleted (s : SnapshotManager) (key : String)
    (hinv : exclusiveInvariant s) :
    exclusiveInvariant (fire { s with deletedFiles := mDel s.deletedFiles key }) := by
  intro k
  rcases hinv k with h | h
  · left
    simpa [fire] using h
  · right
    simp [fire, mGet_mDel, h]

theorem exclusive_after_drop_snapshot (s : SnapshotManager) (key : String)
    (hinv : exclusiveInvariant s) :
    exclusiveInvariant (fire { s with snapshots := mDel s.snapshots key }) := by
  intro k
  rcases hinv k with h | h
  · left
    simp [fire, mGet_mDel, h]
  · right
    simpa [fire] using h

/-- Claim C1 counterexample: after the operation sequence captureDeletion then
captureNewFile on `F`, the identity `F` is present in both the
active-baseline map and the deleted-record map, so the exclusivity invariant
does not hold after every operation sequence. -/
theorem exclusivity_counterexample :
    (mGet (applyOps [Op.captureDeletion "F" none, Op.captureNew "F"]
        (emptyManager, env0)).1.snapshots "F").isSome = true ∧
      (mGet (applyOps [Op.captureDeletion "F" none, Op.captureNew "F"]
        (emptyManager, env0)).1.deletedFiles "F").isSome = true ∧
      ¬ exclusiveInvariant (applyOps [Op.captureDeletion "F" none,
        Op.captureNew "F"] (emptyManager, env0)).1 := by
  refine ⟨by decide, by decide, ?_⟩
  intro hinv
  cases hinv "F" with
  | inl h => exact absurd h (by decide)
  | inr h => exact absurd h (by decide)

/-- Claim C1 amended: every single Baseline Store operation preserves the
exclusivity invariant provided a baseline capture (snapshotFile,
autoSnapshotBeforeChange or trackNewFile) never targets an identity that
currently holds a deleted record; the source checks only the active map
before capturing, so without that proviso a capture on a deleted-record
identity places the identity in both maps, as the counterexample shows. -/
theorem exclusivity_preserved_by_safe_ops (env : Env) (now : Nat)
    (s : SnapshotManager) (o : Op) (hinv : exclusiveInvariant s)
    (hsafe : opSafe s o) : exclusiveInvariant (applyOp env now o s).1 := by
  cases o with
  | capture key =>
    show exclusiveInvariant (snapshotFile env now s key)
    cases hr : readFileContent env key with
    | ioError => simpa [snapshotFile, hr] using hinv
    | notFound => simpa [snapshotFile, hr] using hinv
    | ok content =>
      by_cases hhas : (mGet s.snapshots key).isSome
      · simpa [snapshotFile, hr, hhas] using hinv
      · have hcap := exclusive_after_capture s key
          ({ originalContent := content, snapshotTime := now,
             relativePath := env.rel key, isNewFile := false })
          hinv hsafe
        simpa [snapshotFile, fire, hr, hhas] using hcap
  | autoCapture key =>
    show exclusiveInvariant (autoSnapshotBeforeChange env now s key)
    by_cases hhas : (mGet s.snapshots key).isSome
    · simpa [autoSnapshotBeforeChange, hhas] using hinv
    · cases hr : readFileContent env key with
      | ioError => simpa [autoSnapshotBeforeChange, hr, hhas] using hinv
      | notFound => simpa [autoSnapshotBeforeChange, hr, hhas] using hinv
      | ok content =>
        have hcap := exclusive_after_capture s key
          ({ originalContent := content, snapshotTime := now,
             relativePath := env.rel key, isNewFile := false })
          hinv hsafe
        simpa [autoSnapshotBeforeChange, fire, hr, hhas] using hcap
  | captureNew key =>
    show exclusiveInvariant (trackNewFile env now s key)
    by_cases hhas : (mGet s.snapshots key).isSome
    · simpa [trackNewFile, hhas] using hinv
    · have hcap := exclusive_after_capture s key
        ({ originalContent := "", snapshotTime := now,
           relativePath := env.rel key, isNewFile := true })
        hinv hsafe
      simpa [trackNewFile, fire, hhas] using hcap
  | captureDeletion key fb =>
    show exclusiveInvariant (trackDeletedFile env now s key fb)
    intro k
    by_cases hk : key = k
    · subst hk
      left
      simp [trackDeletedFile, fire, mGet_mDel]
    · rcases hinv k with h | h
      · left
        simp [trackDeletedFile, fire, mGet_mDel, hk, h]
      · right
        simp [trackDeletedFile, fire, mGet_mSet, hk, h]
  | accept key =>
    show exclusiveInvariant ((acceptAndUpdateBaseline env s key).1)
    by_cases hdel : (mGet s.deletedFiles key).isSome
    · have hdrop := exclusive_after_drop_deleted s key hinv
      simpa [acceptAndUpdateBaseline, fire, hdel] using hdrop
    · cases hsv : mGet s.snapshots key with
      | none => simpa [acceptAndUpdateBaseline, hdel, hsv] using hinv
      | some snap =>
        cases hr : readFileContent env key with
        | ioError =>
          simpa [acceptAndUpdateBaseline, hdel, hsv, hr] using hinv
        | notFound =>
          have hdrop := exclusive_after_drop_snapshot s key hinv
          simpa [acceptAndUpdateBaseline, fire, hdel, hsv, hr] using hdrop
        | ok content =>
          have hdrop := exclusive_after_drop_snapshot s key hinv
          simpa [acceptAndUpdateBaseline, fire, hdel, hsv, hr] using hdrop
  | revert key =>
    show exclusiveInvariant ((revertFile env s key).2.1)
    cases hdel : mGet s.deletedFiles key with
    | some dsnap =>
      by_cases hw : key ∈ env.writeErr
      · simpa [revertFile, hdel, hw] using hinv
      · have hdrop := exclusive_after_drop_deleted s key hinv
        simpa [revertFile, fire, hdel, hw] using hdrop
    | none =>
      cases hsv : mGet s.snapshots key with
      | none => simpa [revertFile, hdel, hsv] using hinv
      | some snap =>
        by_cases hn : snap.isNewFile
        · have hrem := exclusive_after_remove s key hinv
          simpa [revertFile, removeSnapshot, fire, hdel, hsv, hn] using hrem
        · by_cases hcond : canOpen env key = true ∧ key ∉ env.writeErr
          · have hrem := exclusive_after_remove s key hinv
            simpa [revertFile, removeSnapshot, fire, hdel, hsv, hn, hcond]
              using hrem
          · simpa [revertFile, hdel, hsv, hn, hcond] using hinv
  | removeBaseline key =>
    show exclusiveInvariant (removeSnapshot s key)
    exact exclusive_after_remove s key hinv
  | clearAll =>
    show exclusiveInvariant (clearAllSnapshots s)
    intro k
    left
    simp [clearAllSnapshots, fire, mGet]

/-- Witness for the amended C1: one safe capture applied to the empty
manager keeps the exclusivity disjunction at identity `G`. -/
theorem exclusivity_preserved_by_safe_ops_witness :
    mGet (applyOp env0 0 (Op.capture "F") emptyManager).1.snapshots "G" =
      none ∨
    mGet (applyOp env0 0 (Op.capture "F") emptyManager).1.deletedFiles "G" =
      none :=
  exclusivity_preserved_by_safe_ops env0 0 emptyManager (Op.capture "F")
    (fun _ => Or.inl rfl) rfl "G"
